import Mathlib

/-!
# Vessel track rendering (`static/js/map.js`)

A shallow embedding of `initializeMap` and its nested helper `getRandomColor`.

* The browser page is explicit state: the map (if any) bound to the element with
  id `map`, and the number of `Math.random()` draws consumed so far.
* `Math.random()` is a stream `rand : Nat → ℚ` of the values it will return; every
  double in `[0, 1)` is a rational and multiplying by 16 is exact, so `⌊r * 16⌋`
  over `ℚ` is what `Math.floor(Math.random() * 16)` computes.
* The Leaflet primitives used by the file (`L.map`, `setView`, `L.tileLayer`,
  `L.polyline`, `L.marker`, `addTo`, `bindPopup`) are modelled by their effect on
  the map's layer list.
-/

namespace VesselMap

/-! ## Data model -/

/-- A geographic point `[lat, lng]`; the coordinates are passed through unchanged. -/
structure GeoPoint where
  lat : ℚ
  lng : ℚ
deriving DecidableEq

/-- The identifier of a vessel as it arrives from the caller: a string, or a number
that is a non-negative integer below `2^53` (an MMSI has nine digits). Up to that
bound every integer is a JavaScript Number of its own, and its string conversion is
its decimal numeral; larger, fractional and negative numbers are not modelled. -/
inductive Mmsi where
  | num (n : Nat) (safe : n < 2 ^ 53)
  | str (s : String)
deriving DecidableEq

/-- String conversion performed by the template literal on `vessel.mmsi`: a string
is used as it is, an integer below `2^53` is printed as its decimal numeral. -/
def Mmsi.toJsString : Mmsi → String
  | .num n _ => toString n
  | .str s => s

/-- A vessel record: `{mmsi, track}`. -/
structure Vessel where
  mmsi : Mmsi
  track : List GeoPoint
deriving DecidableEq

/-- JavaScript indexing `xs[i]`: `none` stands for `undefined`
(negative or past-the-end index). -/
def jsIndex {α : Type} (xs : List α) (i : Int) : Option α :=
  if 0 ≤ i then xs[i.toNat]? else none

/-- JavaScript `color += x` where `x` is a one-character string or `undefined`. -/
def jsAppend (color : String) (x : Option Char) : String :=
  match x with
  | some c => color.push c
  | none => color ++ "undefined"

/-- What a Leaflet layer draws. A marker built from `undefined` has no position. -/
inductive Shape where
  | tileLayer (urlTemplate : String) (attribution : String)
  | polyline (latlngs : List GeoPoint) (color : String)
  | marker (latlng : Option GeoPoint)
deriving DecidableEq

/-- A Leaflet layer together with the popup bound to it, if any. -/
structure Layer where
  shape : Shape
  popup : Option String
deriving DecidableEq

/-- A Leaflet map instance: its container id, its view and its layers in the
order they were added. -/
structure LMap where
  container : String
  view : Option (GeoPoint × Nat)
  layers : List Layer
deriving DecidableEq

/-- The page: the map bound to the element with id `map` (`none` while the
element is not initialized) and the number of random draws consumed. -/
structure Page where
  mapDiv : Option LMap
  randPos : Nat
deriving DecidableEq

/-- Result of a call: the page afterwards and the error thrown, if any. -/
structure Outcome where
  page : Page
  error : Option String
deriving DecidableEq

/-! ## Leaflet primitives -/

/-- The factory `L.map(id)`: a new map on the element `id`. Leaflet throws when the
element is missing or already carries a map. -/
def L.map (id : String) (page : Page) : Except String LMap :=
  if id ≠ "map" then .error "Map container not found."
  else if page.mapDiv.isSome then .error "Map container is already initialized."
  else .ok { container := id, view := none, layers := [] }

/-- The method `map.setView(center, zoom)`. -/
def LMap.setView (m : LMap) (center : GeoPoint) (zoom : Nat) : LMap :=
  { m with view := some (center, zoom) }

/-- The factory `L.tileLayer(urlTemplate, {attribution})`. -/
def L.tileLayer (urlTemplate attribution : String) : Layer :=
  ⟨.tileLayer urlTemplate attribution, none⟩

/-- The factory `L.polyline(latlngs, {color})`. -/
def L.polyline (latlngs : List GeoPoint) (color : String) : Layer :=
  ⟨.polyline latlngs color, none⟩

/-- The factory `L.marker(latlng)`. -/
def L.marker (latlng : Option GeoPoint) : Layer :=
  ⟨.marker latlng, none⟩

/-- The method `layer.addTo(map)`: the layer becomes the last layer of the map; the
returned handle is its position in the layer list. -/
def addTo (layer : Layer) (m : LMap) : LMap × Nat :=
  ({ m with layers := m.layers ++ [layer] }, m.layers.length)

/-- The method `layer.bindPopup(text)` on the layer with handle `h`. -/
def bindPopup (h : Nat) (text : String) (m : LMap) : LMap :=
  { m with layers := m.layers.modify (fun l => { l with popup := some text }) h }

/-! ## The source file -/

/-- The digit table `letters` of `getRandomColor`. -/
def letters : String := "0123456789ABCDEF"

/-- The function `getRandomColor()`: starts from `'#'` and appends
`letters[Math.floor(Math.random() * 16)]` six times. Returns the colour and the
new draw count. -/
def getRandomColor (rand : Nat → ℚ) (pos : Nat) : String × Nat :=
  (List.range 6).foldl
    (fun (st : String × Nat) _ =>
      (jsAppend st.1 (jsIndex letters.toList ⌊rand st.2 * 16⌋), st.2 + 1))
    ("#", pos)

/-- The callback passed to `vessels.forEach`, acting on the map and draw count. -/
def forEachBody (rand : Nat → ℚ) (vessel : Vessel) (st : LMap × Nat) : LMap × Nat :=
  if vessel.track.length > 0 then
    let c := getRandomColor rand st.2
    let m := (addTo (L.polyline vessel.track c.1) st.1).1
    let a := addTo (L.marker (jsIndex vessel.track 0)) m
    let m := bindPopup a.2 ("MMSI: " ++ vessel.mmsi.toJsString ++ " (Start)") a.1
    let b := addTo (L.marker (jsIndex vessel.track ((vessel.track.length : Int) - 1))) m
    let m := bindPopup b.2 ("MMSI: " ++ vessel.mmsi.toJsString ++ " (End)") b.1
    (m, c.2)
  else st

/-- URL template of the tile layer. -/
def tileUrl : String :=
  "https://\x7bs\x7d.tile.openstreetmap.org/\x7bz\x7d/\x7bx\x7d/\x7by\x7d.png"

/-- Attribution text of the tile layer. -/
def tileAttribution : String :=
  "&copy; <a href=\"https://www.openstreetmap.org/copyright\">OpenStreetMap</a> contributors"

/-- The function `initializeMap(vessels)`. -/
def initializeMap (rand : Nat → ℚ) (vessels : List Vessel) (page : Page) : Outcome :=
  match L.map "map" page with
  | .error e => ⟨page, some e⟩
  | .ok m =>
    let m := m.setView ⟨51.9225, 4.4792⟩ 5
    let m := (addTo (L.tileLayer tileUrl tileAttribution) m).1
    let st := vessels.foldl (fun st vessel => forEachBody rand vessel st) (m, page.randPos)
    ⟨{ mapDiv := some st.1, randPos := st.2 }, none⟩

/-! ## Derived definitions used to state the properties -/

/-- The three layers drawn for a vessel with a non-empty track, the colour being
drawn from position `pos` of the random stream. -/
def vesselLayers (rand : Nat → ℚ) (pos : Nat) (vessel : Vessel) : List Layer :=
  [ ⟨.polyline vessel.track (getRandomColor rand pos).1, none⟩,
    ⟨.marker (jsIndex vessel.track 0),
      some ("MMSI: " ++ vessel.mmsi.toJsString ++ " (Start)")⟩,
    ⟨.marker (jsIndex vessel.track ((vessel.track.length : Int) - 1)),
      some ("MMSI: " ++ vessel.mmsi.toJsString ++ " (End)")⟩ ]

/-- Layers drawn by the `forEach` loop over `vessels`, starting at draw `pos`. -/
def loopLayers (rand : Nat → ℚ) : Nat → List Vessel → List Layer
  | _, [] => []
  | pos, v :: vs =>
    if 0 < v.track.length then vesselLayers rand pos v ++ loopLayers rand (pos + 6) vs
    else loopLayers rand pos vs

/-- Number of draws consumed by the `forEach` loop over `vessels`. -/
def loopDraws : List Vessel → Nat
  | [] => 0
  | v :: vs => if 0 < v.track.length then 6 + loopDraws vs else loopDraws vs

/-- The tile layer added by `initializeMap`. -/
def tile : Layer := ⟨.tileLayer tileUrl tileAttribution, none⟩

/-- The character `letters[k]`, with `'?'` standing in when the index is out of range. -/
def digitAt (k : Int) : Char := (jsIndex letters.toList k).getD '?'

/-- A colour string: `'#'` followed by six characters of `letters`. -/
def isHexColor (s : String) : Prop :=
  s.length = 7 ∧ s.toList.head? = some '#' ∧ ∀ c ∈ s.toList.tail, c ∈ letters.toList

instance : DecidablePred isHexColor := fun s => by
  unfold isHexColor; infer_instance

/-- The colour `getRandomColor` returns when its six draws select the digit
indices `idx 0`, ..., `idx 5` (draw `i` is `idx i / 16`). -/
def colorOfIndices (idx : Fin 6 → Fin 16) : String :=
  (getRandomColor (fun i => if h : i < 6 then (((idx ⟨i, h⟩ : Fin 16) : Nat) : ℚ) / 16 else 0) 0).1

/-- Whether a layer is a tile layer. -/
def Layer.isTileLayer (l : Layer) : Bool :=
  match l.shape with
  | .tileLayer _ _ => true
  | _ => false

/-- Whether a layer is a polyline. -/
def Layer.isPolyline (l : Layer) : Bool :=
  match l.shape with
  | .polyline _ _ => true
  | _ => false

/-- Whether a layer is a marker. -/
def Layer.isMarker (l : Layer) : Bool :=
  match l.shape with
  | .marker _ => true
  | _ => false

/-- The vessels that are rendered: those with a non-empty track, in input order. -/
def renderedVessels (vessels : List Vessel) : List Vessel :=
  vessels.filter (fun v => !v.track.isEmpty)

/-- The popup pattern of the specification, `MMSI: <identifier> (<tag>)`: a numeric
identifier stands there as its decimal numeral, a string identifier as it is. -/
def popupSpec (id : Mmsi) (tag : String) : String :=
  match id with
  | .num n _ => "MMSI: " ++ toString n ++ " (" ++ tag ++ ")"
  | .str s => "MMSI: " ++ s ++ " (" ++ tag ++ ")"

/-- The overlays as the specification describes them: for the `k`-th rendered vessel,
a polyline through its track (coloured by the `k`-th group of six draws), a start
marker at the first point and an end marker at the last point. -/
def overlaysSpec (rand : Nat → ℚ) (pos : Nat) (vessels : List Vessel) : List Layer :=
  (renderedVessels vessels).enum.flatMap fun kv =>
    [ ⟨.polyline kv.2.track (getRandomColor rand (pos + 6 * kv.1)).1, none⟩,
      ⟨.marker kv.2.track.head?, some (popupSpec kv.2.mmsi "Start")⟩,
      ⟨.marker kv.2.track.getLast?, some (popupSpec kv.2.mmsi "End")⟩ ]

/-- The view set by `initializeMap`. -/
def initialView : GeoPoint × Nat := (⟨51.9225, 4.4792⟩, 5)

/-- The vessel of the specification's scenario. -/
def scenarioVessel : Vessel := ⟨.num 123 (by decide), [⟨52.0, 4.0⟩, ⟨52.1, 4.1⟩, ⟨52.2, 4.2⟩]⟩

/-- A second vessel, with a single-point track. -/
def otherVessel : Vessel := ⟨.num 7 (by decide), [⟨53, 5⟩]⟩

/-- A vessel without track points. -/
def idleVessel : Vessel := ⟨.str "idle", []⟩

/-- A constant random source. -/
def zeroRand : Nat → ℚ := fun _ => 0

/-- A random source whose first draws are `0, 1/7, 2/7, ...`. -/
def seventhsRand : Nat → ℚ := fun n => (n : ℚ) / 7

/-! ## Helper lemmas -/

theorem modify_append_singleton {α : Type} (f : α → α) (xs : List α) (a : α) :
    (xs ++ [a]).modify f xs.length = xs ++ [f a] := by
  induction xs with
  | nil => rfl
  | cons x xs ih => simpa [List.modify_succ_cons] using ih

theorem addTo_bindPopup (layer : Layer) (text : String) (m : LMap) :
    bindPopup (addTo layer m).2 text (addTo layer m).1
      = { m with layers := m.layers ++ [{ layer with popup := some text }] } := by
  simp [addTo, bindPopup, modify_append_singleton]

theorem getRandomColor_snd (rand : Nat → ℚ) (pos : Nat) :
    (getRandomColor rand pos).2 = pos + 6 := by
  simp [getRandomColor, List.range_succ, List.foldl]

theorem forEachBody_nonempty (rand : Nat → ℚ) (vessel : Vessel) (m : LMap) (pos : Nat)
    (h : 0 < vessel.track.length) :
    forEachBody rand vessel (m, pos)
      = ({ m with layers := m.layers ++ vesselLayers rand pos vessel }, pos + 6) := by
  simp only [forEachBody, gt_iff_lt, h, if_true, addTo_bindPopup, getRandomColor_snd]
  simp only [vesselLayers, L.polyline, L.marker, addTo, List.append_assoc,
    List.singleton_append, List.cons_append, List.nil_append]

theorem forEachBody_empty (rand : Nat → ℚ) (vessel : Vessel) (st : LMap × Nat)
    (h : vessel.track.length = 0) : forEachBody rand vessel st = st := by
  simp [forEachBody, h]

theorem foldl_forEachBody (rand : Nat → ℚ) (vessels : List Vessel) (m : LMap) (pos : Nat) :
    vessels.foldl (fun st vessel => forEachBody rand vessel st) (m, pos)
      = ({ m with layers := m.layers ++ loopLayers rand pos vessels },
          pos + loopDraws vessels) := by
  induction vessels generalizing m pos with
  | nil => simp [loopLayers, loopDraws]
  | cons v vs ih =>
    by_cases h : 0 < v.track.length
    · simp only [List.foldl_cons, forEachBody_nonempty rand v m pos h, ih, loopLayers,
        loopDraws, h, if_true, List.append_assoc]
      congr 1; omega
    · have h0 : v.track.length = 0 := by omega
      simp only [List.foldl_cons, forEachBody_empty rand v (m, pos) h0, ih, loopLayers,
        loopDraws, h, if_false]

theorem initializeMap_fresh (rand : Nat → ℚ) (vessels : List Vessel) (pos : Nat) :
    initializeMap rand vessels ⟨none, pos⟩
      = ⟨⟨some ⟨"map", some (⟨51.9225, 4.4792⟩, 5), tile :: loopLayers rand pos vessels⟩,
          pos + loopDraws vessels⟩, none⟩ := by
  simp [initializeMap, L.map, foldl_forEachBody, LMap.setView, addTo, L.tileLayer, tile]

theorem loopLayers_append (rand : Nat → ℚ) (xs ys : List Vessel) (pos : Nat) :
    loopLayers rand pos (xs ++ ys)
      = loopLayers rand pos xs ++ loopLayers rand (pos + loopDraws xs) ys := by
  induction xs generalizing pos with
  | nil => simp [loopLayers, loopDraws]
  | cons v vs ih =>
    by_cases h : 0 < v.track.length
    · simp [loopLayers, loopDraws, h, ih, Nat.add_assoc]
    · simp [loopLayers, loopDraws, h, ih]

theorem loopDraws_append (xs ys : List Vessel) :
    loopDraws (xs ++ ys) = loopDraws xs + loopDraws ys := by
  induction xs with
  | nil => simp [loopDraws]
  | cons v vs ih =>
    by_cases h : 0 < v.track.length
    · simp [loopDraws, h, ih, Nat.add_assoc]
    · simp [loopDraws, h, ih]

theorem floor_draw_range (r : ℚ) (h0 : 0 ≤ r) (h1 : r < 1) :
    0 ≤ ⌊r * 16⌋ ∧ ⌊r * 16⌋ < 16 := by
  constructor
  · exact Int.floor_nonneg.mpr (by positivity)
  · rw [Int.floor_lt]; push_cast; linarith

theorem jsIndex_letters (k : Int) (h0 : 0 ≤ k) (h1 : k < 16) :
    jsIndex letters.toList k = some (digitAt k) ∧ digitAt k ∈ letters.toList := by
  interval_cases k <;> decide

theorem digitAt_inj (a b : Int) (ha0 : 0 ≤ a) (ha1 : a < 16) (hb0 : 0 ≤ b) (hb1 : b < 16)
    (h : digitAt a = digitAt b) : a = b := by
  interval_cases a <;> interval_cases b <;> first | rfl | (exact absurd h (by decide))

theorem getRandomColor_fst (rand : Nat → ℚ) (pos : Nat)
    (h : ∀ i, i < 6 → 0 ≤ rand (pos + i) ∧ rand (pos + i) < 1) :
    (getRandomColor rand pos).1
      = String.mk ('#' :: (List.range 6).map (fun i => digitAt ⌊rand (pos + i) * 16⌋)) := by
  have e : ∀ i, i < 6 →
      jsIndex letters.toList ⌊rand (pos + i) * 16⌋ = some (digitAt ⌊rand (pos + i) * 16⌋) :=
    fun i hi => (jsIndex_letters _ (floor_draw_range _ (h i hi).1 (h i hi).2).1
      (floor_draw_range _ (h i hi).1 (h i hi).2).2).1
  have e0 := e 0 (by omega)
  simp only [Nat.add_zero] at e0
  simp only [getRandomColor, List.range_succ, List.range_zero, List.nil_append,
    List.cons_append, List.foldl, List.map, Nat.add_assoc, Nat.reduceAdd, Nat.add_zero,
    e0, e 1 (by omega), e 2 (by omega), e 3 (by omega), e 4 (by omega), e 5 (by omega),
    jsAppend]
  rfl

theorem floor_eq_iff_interval (r : ℚ) (k : Int) :
    ⌊r * 16⌋ = k ↔ (k : ℚ) / 16 ≤ r ∧ r < ((k : ℚ) + 1) / 16 := by
  rw [Int.floor_eq_iff]
  constructor
  · rintro ⟨a, b⟩; constructor
    · rw [div_le_iff₀ (by norm_num)]; exact a
    · rw [lt_div_iff₀ (by norm_num)]; exact b
  · rintro ⟨a, b⟩; constructor
    · rw [div_le_iff₀ (by norm_num)] at a; exact a
    · rw [lt_div_iff₀ (by norm_num)] at b; exact b

theorem getRandomColor_of_indices (rand : Nat → ℚ) (pos : Nat) (idx : Fin 6 → Fin 16)
    (h : ∀ i : Fin 6, ⌊rand (pos + i) * 16⌋ = ((idx i : Nat) : Int)) :
    (getRandomColor rand pos).1
      = String.mk ('#' :: List.ofFn (fun i : Fin 6 => digitAt ((idx i : Nat) : Int))) := by
  have hr : ∀ i, i < 6 → 0 ≤ rand (pos + i) ∧ rand (pos + i) < 1 := by
    intro i hi
    have hk := (floor_eq_iff_interval _ _).mp (h ⟨i, hi⟩)
    have h16 : (((idx ⟨i, hi⟩ : Fin 16) : Nat) : ℚ) + 1 ≤ 16 := by
      exact_mod_cast Nat.succ_le_of_lt (idx ⟨i, hi⟩).isLt
    have h0 : (0 : ℚ) ≤ (((idx ⟨i, hi⟩ : Fin 16) : Nat) : ℚ) := by positivity
    simp only [Int.cast_natCast] at hk
    constructor
    · exact le_trans (by positivity) hk.1
    · refine lt_of_lt_of_le hk.2 ?_
      rw [div_le_iff₀ (by norm_num)]; linarith
  rw [getRandomColor_fst rand pos hr]
  have e := fun i (hi : i < 6) => h ⟨i, hi⟩
  have e0 := e 0 (by omega)
  simp only [Nat.add_zero] at e0
  simp only [List.range_succ, List.range_zero, List.nil_append, List.cons_append, List.map,
    List.ofFn_succ, List.ofFn_zero, e0, e 1 (by omega), e 2 (by omega), e 3 (by omega),
    e 4 (by omega), e 5 (by omega), Nat.cast_zero, Nat.add_zero]
  rfl

theorem colorOfIndices_eq (idx : Fin 6 → Fin 16) :
    colorOfIndices idx
      = String.mk ('#' :: List.ofFn (fun i : Fin 6 => digitAt ((idx i : Nat) : Int))) := by
  unfold colorOfIndices
  apply getRandomColor_of_indices
  intro i
  have hi : (0 + (i : Nat)) < 6 := by omega
  simp only [hi, dif_pos]
  rw [floor_eq_iff_interval]
  have : (⟨0 + (i : Nat), hi⟩ : Fin 6) = i := by ext; simp
  rw [this]
  simp only [Int.cast_natCast]
  constructor
  · exact le_refl _
  · rw [div_lt_div_iff₀ (by norm_num) (by norm_num)]; linarith

theorem digit_of_letter (c : Char) (h : c ∈ letters.toList) :
    ∃ k : Fin 16, digitAt ((k : Nat) : Int) = c := by
  have : ∀ d ∈ letters.toList, ∃ k : Fin 16, digitAt ((k : Nat) : Int) = d := by decide
  exact this c h

theorem colorOfIndices_injective : Function.Injective colorOfIndices := by
  intro a b hab
  rw [colorOfIndices_eq, colorOfIndices_eq] at hab
  have hl := List.ofFn_injective (List.tail_eq_of_cons_eq (congrArg String.data hab))
  funext i
  have hi := congrFun hl i
  have := digitAt_inj _ _ (by positivity) (by exact_mod_cast (a i).isLt) (by positivity)
    (by exact_mod_cast (b i).isLt) hi
  exact Fin.ext (by exact_mod_cast this)


theorem colorOfIndices_isHexColor (idx : Fin 6 → Fin 16) : isHexColor (colorOfIndices idx) := by
  rw [colorOfIndices_eq]
  refine ⟨by simp [String.length], by simp [String.toList], ?_⟩
  intro c hc
  simp only [String.toList, List.tail_cons, List.mem_ofFn, Set.mem_range] at hc
  obtain ⟨i, rfl⟩ := hc
  exact (jsIndex_letters _ (by positivity) (by exact_mod_cast (idx i).isLt)).2

theorem colorOfIndices_surjective (s : String) (hs : isHexColor s) :
    ∃ idx : Fin 6 → Fin 16, colorOfIndices idx = s := by
  obtain ⟨l⟩ := s
  obtain ⟨hlen, hhead, htail⟩ := hs
  simp only [String.length, String.toList] at hlen hhead htail
  match l, hlen, hhead, htail with
  | [c, d0, d1, d2, d3, d4, d5], _, hhead, htail =>
    simp only [List.head?_cons, Option.some.injEq] at hhead
    subst hhead
    simp only [List.tail_cons, List.mem_cons, List.mem_singleton, forall_eq_or_imp,
      List.not_mem_nil, false_implies, implies_true, and_true] at htail
    obtain ⟨h0, h1, h2, h3, h4, h5⟩ := htail
    obtain ⟨k0, rfl⟩ := digit_of_letter _ h0
    obtain ⟨k1, rfl⟩ := digit_of_letter _ h1
    obtain ⟨k2, rfl⟩ := digit_of_letter _ h2
    obtain ⟨k3, rfl⟩ := digit_of_letter _ h3
    obtain ⟨k4, rfl⟩ := digit_of_letter _ h4
    obtain ⟨k5, rfl⟩ := digit_of_letter _ h5
    refine ⟨![k0, k1, k2, k3, k4, k5], ?_⟩
    rw [colorOfIndices_eq]
    simp [List.ofFn_succ, Fin.succ]

theorem initializeMap_split (rand : Nat → ℚ) (pre post : List Vessel) (v : Vessel) (pos : Nat)
    (h : 0 < v.track.length) :
    initializeMap rand (pre ++ v :: post) ⟨none, pos⟩
      = ⟨⟨some ⟨"map", some (⟨51.9225, 4.4792⟩, 5),
            tile :: (loopLayers rand pos pre ++ (vesselLayers rand (pos + loopDraws pre) v
              ++ loopLayers rand (pos + loopDraws pre + 6) post))⟩,
          pos + loopDraws pre + 6 + loopDraws post⟩, none⟩ := by
  rw [initializeMap_fresh, loopLayers_append, loopDraws_append]
  simp only [loopLayers, loopDraws, h, if_true]
  simp only [Nat.add_assoc]

theorem jsIndex_zero {α : Type} (xs : List α) : jsIndex xs 0 = xs[0]? := by
  simp [jsIndex]

theorem jsIndex_last {α : Type} (xs : List α) (h : 0 < xs.length) :
    jsIndex xs ((xs.length : Int) - 1) = xs[xs.length - 1]? := by
  have h1 : (0 : Int) ≤ (xs.length : Int) - 1 := by omega
  have h2 : ((xs.length : Int) - 1).toNat = xs.length - 1 := by omega
  simp [jsIndex, h1, h2]

theorem loopLayers_not_tile (rand : Nat → ℚ) (vessels : List Vessel) (pos : Nat) :
    (loopLayers rand pos vessels).filter Layer.isTileLayer = [] := by
  induction vessels generalizing pos with
  | nil => rfl
  | cons v vs ih =>
    by_cases h : 0 < v.track.length
    · simp [loopLayers, h, ih, vesselLayers, Layer.isTileLayer]
    · simp [loopLayers, h, ih]

theorem renderedVessels_cons (v : Vessel) (vs : List Vessel) :
    renderedVessels (v :: vs)
      = if 0 < v.track.length then v :: renderedVessels vs else renderedVessels vs := by
  cases hv : v.track with
  | nil => simp [renderedVessels, hv]
  | cons p ps => simp [renderedVessels, hv]

theorem loopDraws_eq (vessels : List Vessel) :
    loopDraws vessels = 6 * (renderedVessels vessels).length := by
  induction vessels with
  | nil => rfl
  | cons v vs ih =>
    by_cases h : 0 < v.track.length
    · simp only [loopDraws, renderedVessels_cons, h, if_true, ih, List.length_cons]; omega
    · simp only [loopDraws, renderedVessels_cons, h, if_false, ih]

theorem head?_eq_jsIndex {α : Type} (xs : List α) : xs.head? = jsIndex xs 0 := by
  rw [jsIndex_zero, List.head?_eq_getElem?]

theorem getLast?_eq_jsIndex {α : Type} (xs : List α) (h : 0 < xs.length) :
    xs.getLast? = jsIndex xs ((xs.length : Int) - 1) := by
  rw [jsIndex_last xs h, List.getLast?_eq_getElem?]

theorem toJsString_num (id : Mmsi) (n : Nat) (hn : n < 2 ^ 53) (h : id = Mmsi.num n hn) :
    id.toJsString = toString n := by
  subst h; rfl

theorem toJsString_str (id : Mmsi) (s : String) (h : id = Mmsi.str s) :
    id.toJsString = s := by
  subst h; rfl

theorem popupSpec_start (id : Mmsi) :
    popupSpec id "Start" = "MMSI: " ++ id.toJsString ++ " (Start)" := by
  have e : " (" ++ ("Start" ++ ")") = " (Start)" := by decide
  cases id <;> simp only [popupSpec, Mmsi.toJsString, String.append_assoc, e]

theorem popupSpec_end (id : Mmsi) :
    popupSpec id "End" = "MMSI: " ++ id.toJsString ++ " (End)" := by
  have e : " (" ++ ("End" ++ ")") = " (End)" := by decide
  cases id <;> simp only [popupSpec, Mmsi.toJsString, String.append_assoc, e]

theorem loopLayers_eq_enumFrom (rand : Nat → ℚ) (vessels : List Vessel) (pos k : Nat) :
    loopLayers rand (pos + 6 * k) vessels
      = ((renderedVessels vessels).enumFrom k).flatMap fun kv =>
          [ (⟨.polyline kv.2.track (getRandomColor rand (pos + 6 * kv.1)).1, none⟩ : Layer),
            ⟨.marker kv.2.track.head?, some (popupSpec kv.2.mmsi "Start")⟩,
            ⟨.marker kv.2.track.getLast?, some (popupSpec kv.2.mmsi "End")⟩ ] := by
  induction vessels generalizing k with
  | nil => rfl
  | cons v vs ih =>
    by_cases h : 0 < v.track.length
    · have e : pos + 6 * k + 6 = pos + 6 * (k + 1) := by omega
      simp only [loopLayers, renderedVessels_cons, h, if_true, List.enumFrom_cons,
        List.flatMap_cons, e, ih, vesselLayers, head?_eq_jsIndex, getLast?_eq_jsIndex _ h,
        popupSpec_start, popupSpec_end]
    · simp only [loopLayers, renderedVessels_cons, h, if_false, ih]

theorem loopLayers_eq_overlaysSpec (rand : Nat → ℚ) (vessels : List Vessel) (pos : Nat) :
    loopLayers rand pos vessels = overlaysSpec rand pos vessels := by
  have := loopLayers_eq_enumFrom rand vessels pos 0
  simpa [overlaysSpec, List.enum] using this

theorem loopLayers_length (rand : Nat → ℚ) (vessels : List Vessel) (pos : Nat) :
    (loopLayers rand pos vessels).length = 3 * (renderedVessels vessels).length := by
  induction vessels generalizing pos with
  | nil => rfl
  | cons v vs ih =>
    by_cases h : 0 < v.track.length
    · simp only [loopLayers, renderedVessels_cons, h, if_true, List.length_append, ih,
        vesselLayers, List.length_cons, List.length_nil]; omega
    · simp only [loopLayers, renderedVessels_cons, h, if_false, ih]

theorem getElem?_append_add {α : Type} (xs ys : List α) (k : Nat) :
    (xs ++ ys)[xs.length + k]? = ys[k]? := by
  rw [List.getElem?_append_right (Nat.le_add_right _ _)]
  simp

theorem seventhsRand_range (i : Nat) (hi : i < 6) :
    0 ≤ seventhsRand (0 + i) ∧ seventhsRand (0 + i) < 1 := by
  have : (i : ℚ) < 6 := by exact_mod_cast hi
  simp only [seventhsRand, Nat.zero_add]
  constructor
  · positivity
  · rw [div_lt_one (by norm_num)]; linarith

theorem getRandomColor_seventhsRand : (getRandomColor seventhsRand 0).1 = "#02469B" := by
  rw [getRandomColor_fst _ _ seventhsRand_range]
  norm_num [List.range_succ, seventhsRand, digitAt, jsIndex, letters]
  rfl

theorem isHexColor_ncard : Set.ncard {s | isHexColor s} = 16 ^ 6 := by
  have e : {s | isHexColor s} = Set.image colorOfIndices Set.univ := by
    ext s
    simp only [Set.mem_setOf_eq, Set.image_univ, Set.mem_range]
    constructor
    · exact colorOfIndices_surjective s
    · rintro ⟨idx, rfl⟩; exact colorOfIndices_isHexColor idx
  rw [e, Set.ncard_image_of_injective _ colorOfIndices_injective, Set.ncard_univ,
    Nat.card_eq_fintype_card]
  simp

/-! ## The claims -/

/-- Claim C1. For a vessel `v` with `track.length >= 1` anywhere in the list passed to
`initializeMap`, the call adds for it exactly three layers, right after the layers of
the vessels before it and right before the layers of the vessels after it: one
polyline through `v.track` and two markers whose popups are `"MMSI: <mmsi> (Start)"`
and `"MMSI: <mmsi> (End)"`, where `<mmsi>` is the decimal numeral of a numeric
identifier and the string itself for a string identifier. -/
theorem initializeMap_draws_vessel (rand : Nat → ℚ) (pre post : List Vessel) (v : Vessel)
    (pos : Nat) (h : 1 ≤ v.track.length) :
    ∃ (m0 m1 m2 : LMap) (p0 p1 p2 : Nat) (rest : List Layer) (color : String)
      (start stop : Option GeoPoint) (idText : String),
      (∀ n hn, v.mmsi = Mmsi.num n hn → idText = toString n) ∧
      (∀ s, v.mmsi = Mmsi.str s → idText = s) ∧
      initializeMap rand pre ⟨none, pos⟩ = ⟨⟨some m0, p0⟩, none⟩ ∧
      initializeMap rand (pre ++ v :: post) ⟨none, pos⟩ = ⟨⟨some m1, p1⟩, none⟩ ∧
      initializeMap rand post ⟨none, p0 + 6⟩ = ⟨⟨some m2, p2⟩, none⟩ ∧
      m2.layers = tile :: rest ∧
      m1.layers = m0.layers ++
        [ ⟨.polyline v.track color, none⟩,
          ⟨.marker start, some ("MMSI: " ++ idText ++ " (Start)")⟩,
          ⟨.marker stop, some ("MMSI: " ++ idText ++ " (End)")⟩ ] ++ rest := by
  refine ⟨_, _, _, _, _, _, _, (getRandomColor rand (pos + loopDraws pre)).1,
    jsIndex v.track 0, jsIndex v.track ((v.track.length : Int) - 1), v.mmsi.toJsString,
    toJsString_num v.mmsi, toJsString_str v.mmsi,
    initializeMap_fresh rand pre pos, initializeMap_split rand pre post v pos h,
    initializeMap_fresh rand post _, rfl, ?_⟩
  simp [vesselLayers]

theorem initializeMap_draws_vessel_witness :
    1 ≤ scenarioVessel.track.length
    ∧ ∃ (m0 m1 m2 : LMap) (p0 p1 p2 : Nat) (rest : List Layer) (color : String)
      (start stop : Option GeoPoint),
      initializeMap zeroRand [idleVessel] ⟨none, 0⟩ = ⟨⟨some m0, p0⟩, none⟩ ∧
      initializeMap zeroRand ([idleVessel] ++ scenarioVessel :: [otherVessel]) ⟨none, 0⟩
        = ⟨⟨some m1, p1⟩, none⟩ ∧
      initializeMap zeroRand [otherVessel] ⟨none, p0 + 6⟩ = ⟨⟨some m2, p2⟩, none⟩ ∧
      m2.layers = tile :: rest ∧
      m1.layers = m0.layers ++
        [ ⟨.polyline scenarioVessel.track color, none⟩,
          ⟨.marker start, some "MMSI: 123 (Start)"⟩,
          ⟨.marker stop, some "MMSI: 123 (End)"⟩ ] ++ rest :=
  ⟨by decide, by
    obtain ⟨m0, m1, m2, p0, p1, p2, rest, color, start, stop, idText, hnum, _, h0, h1, h2,
      h3, h4⟩ := initializeMap_draws_vessel zeroRand [idleVessel] [otherVessel]
        scenarioVessel 0 (by decide)
    have hid : idText = "123" := by rw [hnum 123 (by decide) rfl]; decide
    subst hid
    exact ⟨m0, m1, m2, p0, p1, p2, rest, color, start, stop, h0, h1, h2, h3, h4⟩⟩

/-- Claim C2. A vessel with an empty track contributes nothing: the callback leaves the
map and the draw count as they are, and `initializeMap` on a list containing the
vessel gives the same result as on the list with that vessel removed. -/
theorem initializeMap_skips_empty (rand : Nat → ℚ) (pre post : List Vessel) (v : Vessel)
    (page : Page) (st : LMap × Nat) (h : v.track.length = 0) :
    forEachBody rand v st = st
    ∧ initializeMap rand (pre ++ v :: post) page = initializeMap rand (pre ++ post) page := by
  refine ⟨forEachBody_empty rand v st h, ?_⟩
  unfold initializeMap
  cases L.map "map" page with
  | error e => rfl
  | ok m => simp only [List.foldl_append, List.foldl_cons, forEachBody_empty rand v _ h]

theorem initializeMap_skips_empty_witness :
    idleVessel.track.length = 0
    ∧ forEachBody zeroRand idleVessel (⟨"map", none, [tile]⟩, 0) = (⟨"map", none, [tile]⟩, 0)
    ∧ initializeMap zeroRand ([scenarioVessel] ++ idleVessel :: [otherVessel]) ⟨none, 0⟩
        = initializeMap zeroRand ([scenarioVessel] ++ [otherVessel]) ⟨none, 0⟩ :=
  ⟨by decide,
    initializeMap_skips_empty zeroRand [scenarioVessel] [otherVessel] idleVessel ⟨none, 0⟩
      (⟨"map", none, [tile]⟩, 0) (by decide)⟩

/-- Claim C3. For a rendered vessel (non-empty track), both index accesses `track[0]`
and `track[track.length - 1]` are in bounds, the marker carrying the `(Start)` popup
is placed at `track[0]` and the marker carrying the `(End)` popup is placed at
`track[track.length - 1]`; the identifier in the popups is the decimal numeral of a
numeric identifier and the string itself for a string identifier. -/
theorem initializeMap_marker_positions (rand : Nat → ℚ) (pre post : List Vessel) (v : Vessel)
    (pos : Nat) (h : 0 < v.track.length) :
    ∃ (first last : GeoPoint) (m0 m1 : LMap) (p0 p1 : Nat) (idText : String),
      (∀ n hn, v.mmsi = Mmsi.num n hn → idText = toString n) ∧
      (∀ s, v.mmsi = Mmsi.str s → idText = s) ∧
      v.track[0]? = some first ∧
      v.track[v.track.length - 1]? = some last ∧
      jsIndex v.track 0 = some first ∧
      jsIndex v.track ((v.track.length : Int) - 1) = some last ∧
      initializeMap rand pre ⟨none, pos⟩ = ⟨⟨some m0, p0⟩, none⟩ ∧
      initializeMap rand (pre ++ v :: post) ⟨none, pos⟩ = ⟨⟨some m1, p1⟩, none⟩ ∧
      m1.layers[m0.layers.length + 1]?
        = some ⟨.marker (some first), some ("MMSI: " ++ idText ++ " (Start)")⟩ ∧
      m1.layers[m0.layers.length + 2]?
        = some ⟨.marker (some last), some ("MMSI: " ++ idText ++ " (End)")⟩ := by
  have hl : v.track.length - 1 < v.track.length := by omega
  refine ⟨v.track.get ⟨0, h⟩, v.track.get ⟨v.track.length - 1, hl⟩, _, _, _, _,
    v.mmsi.toJsString, toJsString_num v.mmsi, toJsString_str v.mmsi, ?_, ?_, ?_, ?_,
    initializeMap_fresh rand pre pos, initializeMap_split rand pre post v pos h, ?_, ?_⟩
  · simp [List.getElem?_eq_getElem h]
  · simp [List.getElem?_eq_getElem hl]
  · simp [jsIndex_zero, List.getElem?_eq_getElem h]
  · simp [jsIndex_last _ h, List.getElem?_eq_getElem hl]
  · simp only [List.length_cons, List.getElem?_cons_succ, getElem?_append_add, vesselLayers,
      jsIndex_zero, List.getElem?_eq_getElem h]
    rfl
  · simp only [List.length_cons, List.getElem?_cons_succ, getElem?_append_add, vesselLayers,
      jsIndex_last _ h, List.getElem?_eq_getElem hl]
    simp

theorem initializeMap_marker_positions_witness :
    0 < scenarioVessel.track.length
    ∧ ∃ (m0 m1 : LMap) (p0 p1 : Nat),
      initializeMap zeroRand [] ⟨none, 0⟩ = ⟨⟨some m0, p0⟩, none⟩ ∧
      initializeMap zeroRand ([] ++ scenarioVessel :: []) ⟨none, 0⟩
        = ⟨⟨some m1, p1⟩, none⟩ ∧
      m1.layers[m0.layers.length + 1]?
        = some ⟨.marker (some ⟨52.0, 4.0⟩), some "MMSI: 123 (Start)"⟩ ∧
      m1.layers[m0.layers.length + 2]?
        = some ⟨.marker (some ⟨52.2, 4.2⟩), some "MMSI: 123 (End)"⟩ :=
  ⟨by decide, by
    obtain ⟨first, last, m0, m1, p0, p1, idText, hnum, _, hf, hl, _, _, h0, h1, h2, h3⟩ :=
      initializeMap_marker_positions zeroRand [] [] scenarioVessel 0 (by decide)
    have hid : idText = "123" := by rw [hnum 123 (by decide) rfl]; decide
    have hfirst : first = ⟨52.0, 4.0⟩ := (Option.some.inj hf).symm
    have hlast : last = ⟨52.2, 4.2⟩ := (Option.some.inj hl).symm
    subst hid hfirst hlast
    exact ⟨m0, m1, p0, p1, h0, h1, h2, h3⟩⟩

/-- Claim C4. For every vessel list, `initializeMap` (on a page whose map element is not
yet initialized) succeeds and the resulting map holds exactly one tile layer, its
first layer, with the fixed OpenStreetMap URL template and attribution text. -/
theorem initializeMap_one_tileLayer (rand : Nat → ℚ) (vessels : List Vessel) (pos : Nat) :
    ∃ (m : LMap) (p : Nat),
      initializeMap rand vessels ⟨none, pos⟩ = ⟨⟨some m, p⟩, none⟩ ∧
      m.layers.filter Layer.isTileLayer
        = [⟨.tileLayer "https://\x7bs\x7d.tile.openstreetmap.org/\x7bz\x7d/\x7bx\x7d/\x7by\x7d.png"
            "&copy; <a href=\"https://www.openstreetmap.org/copyright\">OpenStreetMap</a> contributors",
            none⟩] ∧
      m.layers.head? = some (L.tileLayer tileUrl tileAttribution) := by
  refine ⟨_, _, initializeMap_fresh rand vessels pos, ?_, rfl⟩
  simp only [List.filter_cons, loopLayers_not_tile]
  rfl

/-- Claim C8. For a vessel whose track has exactly one point `p`, the start marker and
the end marker added by `initializeMap` are both placed at `p`; the identifier in
their popups is the decimal numeral of a numeric identifier and the string itself for
a string identifier. -/
theorem initializeMap_single_point (rand : Nat → ℚ) (pre post : List Vessel) (mmsi : Mmsi)
    (p : GeoPoint) (pos : Nat) :
    ∃ (m0 m1 : LMap) (p0 p1 : Nat) (idText : String),
      (∀ n hn, mmsi = Mmsi.num n hn → idText = toString n) ∧
      (∀ s, mmsi = Mmsi.str s → idText = s) ∧
      initializeMap rand pre ⟨none, pos⟩ = ⟨⟨some m0, p0⟩, none⟩ ∧
      initializeMap rand (pre ++ ⟨mmsi, [p]⟩ :: post) ⟨none, pos⟩ = ⟨⟨some m1, p1⟩, none⟩ ∧
      m1.layers[m0.layers.length + 1]?
        = some ⟨.marker (some p), some ("MMSI: " ++ idText ++ " (Start)")⟩ ∧
      m1.layers[m0.layers.length + 2]?
        = some ⟨.marker (some p), some ("MMSI: " ++ idText ++ " (End)")⟩ := by
  refine ⟨_, _, _, _, mmsi.toJsString, toJsString_num mmsi, toJsString_str mmsi,
    initializeMap_fresh rand pre pos,
    initializeMap_split rand pre post ⟨mmsi, [p]⟩ pos (by simp), ?_, ?_⟩
  · simp only [List.length_cons, List.getElem?_cons_succ, getElem?_append_add, vesselLayers]
    simp [jsIndex]
  · simp only [List.length_cons, List.getElem?_cons_succ, getElem?_append_add, vesselLayers]
    simp [jsIndex]

theorem initializeMap_single_point_witness :
    ∃ (m0 m1 : LMap) (p0 p1 : Nat),
      initializeMap zeroRand [scenarioVessel] ⟨none, 0⟩ = ⟨⟨some m0, p0⟩, none⟩ ∧
      initializeMap zeroRand ([scenarioVessel] ++ ⟨.str "ABC-9", [⟨53, 5⟩]⟩ :: [idleVessel])
        ⟨none, 0⟩ = ⟨⟨some m1, p1⟩, none⟩ ∧
      m1.layers[m0.layers.length + 1]?
        = some ⟨.marker (some ⟨53, 5⟩), some "MMSI: ABC-9 (Start)"⟩ ∧
      m1.layers[m0.layers.length + 2]?
        = some ⟨.marker (some ⟨53, 5⟩), some "MMSI: ABC-9 (End)"⟩ := by
  obtain ⟨m0, m1, p0, p1, idText, _, hstr, h0, h1, h2, h3⟩ :=
    initializeMap_single_point zeroRand [scenarioVessel] [idleVessel] (.str "ABC-9") ⟨53, 5⟩ 0
  have hid : idText = "ABC-9" := hstr "ABC-9" rfl
  subst hid
  exact ⟨m0, m1, p0, p1, h0, h1, h2, h3⟩

/-- Claim C9. For the empty vessel list, `initializeMap` leaves a map whose only layer is
the tile layer: no polyline, no marker, and the draw count is unchanged whatever the
random source. -/
theorem initializeMap_nil (rand : Nat → ℚ) (pos : Nat) :
    initializeMap rand [] ⟨none, pos⟩
      = ⟨⟨some ⟨"map", some (⟨51.9225, 4.4792⟩, 5),
                [⟨.tileLayer tileUrl tileAttribution, none⟩]⟩, pos⟩, none⟩ := by
  rfl

/-- Claim C10. For every vessel list, the layers after the tile layer are the
concatenation, over the vessels with a non-empty track in input order, of the
polyline through the track, the start marker and the end marker (with the popups
`MMSI: <identifier> (Start)` and `MMSI: <identifier> (End)`); their number is three
times the number of such vessels and six draws are consumed per such vessel. -/
theorem initializeMap_overlays (rand : Nat → ℚ) (vessels : List Vessel) (pos : Nat) :
    ∃ m : LMap,
      initializeMap rand vessels ⟨none, pos⟩
        = ⟨⟨some m, pos + 6 * (renderedVessels vessels).length⟩, none⟩ ∧
      m.layers = L.tileLayer tileUrl tileAttribution :: overlaysSpec rand pos vessels ∧
      (overlaysSpec rand pos vessels).length = 3 * (renderedVessels vessels).length := by
  refine ⟨⟨"map", some (⟨51.9225, 4.4792⟩, 5), tile :: loopLayers rand pos vessels⟩,
    ?_, ?_, ?_⟩
  · rw [initializeMap_fresh, loopDraws_eq]
  · simp only [loopLayers_eq_overlaysSpec]; rfl
  · rw [← loopLayers_eq_overlaysSpec, loopLayers_length]

/-- Claim C6 as stated is refuted: after a first call has drawn `scenarioVessel`, a second
call for `otherVessel` throws, leaves the page as it was, and so does not add its
layers on top of the first call's. -/
theorem initializeMap_second_call_adds_nothing :
    (initializeMap zeroRand [otherVessel]
        (initializeMap zeroRand [scenarioVessel] ⟨none, 0⟩).page).error
      = some "Map container is already initialized."
    ∧ (initializeMap zeroRand [otherVessel]
        (initializeMap zeroRand [scenarioVessel] ⟨none, 0⟩).page).page
      = (initializeMap zeroRand [scenarioVessel] ⟨none, 0⟩).page
    ∧ ¬ ∃ (m1 m2 : LMap) (added : List Layer),
        (initializeMap zeroRand [scenarioVessel] ⟨none, 0⟩).page.mapDiv = some m1 ∧
        (initializeMap zeroRand [otherVessel]
          (initializeMap zeroRand [scenarioVessel] ⟨none, 0⟩).page).page.mapDiv = some m2 ∧
        m2.layers = m1.layers ++ L.tileLayer tileUrl tileAttribution :: added := by
  have e : initializeMap zeroRand [otherVessel]
        (initializeMap zeroRand [scenarioVessel] ⟨none, 0⟩).page
      = ⟨(initializeMap zeroRand [scenarioVessel] ⟨none, 0⟩).page,
          some "Map container is already initialized."⟩ := by
    rw [initializeMap_fresh]; rfl
  refine ⟨by rw [e], by rw [e], ?_⟩
  rintro ⟨m1, m2, added, h1, h2, h3⟩
  rw [e, h1] at h2
  cases h2
  simp at h3

/-- Claim C6, amended: a call of `initializeMap` on a fresh page succeeds; a second call
on the resulting page throws `Map container is already initialized.` and leaves the
page, with every layer of the first call, exactly as it was. -/
theorem initializeMap_second_call (rand rand2 : Nat → ℚ) (vessels vessels2 : List Vessel)
    (pos : Nat) :
    (initializeMap rand vessels ⟨none, pos⟩).error = none
    ∧ initializeMap rand2 vessels2 (initializeMap rand vessels ⟨none, pos⟩).page
      = ⟨(initializeMap rand vessels ⟨none, pos⟩).page,
          some "Map container is already initialized."⟩ := by
  rw [initializeMap_fresh]
  exact ⟨rfl, rfl⟩

/-- Claim C5. With six draws in `[0, 1)`, `getRandomColor` returns a string of length 7
that starts with `'#'` and continues with six characters of `0123456789ABCDEF`;
every index `⌊r * 16⌋` lies in `0..15`, so `letters[...]` is never `undefined`; six
draws are consumed. -/
theorem getRandomColor_valid (rand : Nat → ℚ) (pos : Nat)
    (h : ∀ i, i < 6 → 0 ≤ rand (pos + i) ∧ rand (pos + i) < 1) :
    (getRandomColor rand pos).1.length = 7
    ∧ (getRandomColor rand pos).1.toList.head? = some '#'
    ∧ (∀ j, 1 ≤ j → j < 7 →
        ∃ c, (getRandomColor rand pos).1.toList[j]? = some c ∧ c ∈ "0123456789ABCDEF".toList)
    ∧ (∀ i, i < 6 → 0 ≤ ⌊rand (pos + i) * 16⌋ ∧ ⌊rand (pos + i) * 16⌋ ≤ 15
        ∧ ∃ c, jsIndex letters.toList ⌊rand (pos + i) * 16⌋ = some c) := by
  have hf := fun i hi => floor_draw_range _ (h i hi).1 (h i hi).2
  refine ⟨?_, ?_, ?_, ?_⟩
  · rw [getRandomColor_fst rand pos h]; simp [String.length]
  · rw [getRandomColor_fst rand pos h]; simp [String.toList]
  · intro j h1 h7
    rw [getRandomColor_fst rand pos h]
    obtain ⟨i, rfl⟩ : ∃ i, j = i + 1 := ⟨j - 1, by omega⟩
    have hi : i < 6 := by omega
    refine ⟨digitAt ⌊rand (pos + i) * 16⌋, ?_, (jsIndex_letters _ (hf i hi).1 (hf i hi).2).2⟩
    simp [String.toList, hi]
  · intro i hi
    exact ⟨(hf i hi).1, by have := (hf i hi).2; omega,
      _, (jsIndex_letters _ (hf i hi).1 (hf i hi).2).1⟩

theorem getRandomColor_valid_witness :
    (∀ i, i < 6 → 0 ≤ seventhsRand (0 + i) ∧ seventhsRand (0 + i) < 1)
    ∧ (getRandomColor seventhsRand 0).1 = "#02469B"
    ∧ (getRandomColor seventhsRand 0).1.length = 7
    ∧ (getRandomColor seventhsRand 0).1.toList.head? = some '#'
    ∧ (∀ j, 1 ≤ j → j < 7 →
        ∃ c, (getRandomColor seventhsRand 0).1.toList[j]? = some c
          ∧ c ∈ "0123456789ABCDEF".toList)
    ∧ (∀ i, i < 6 → 0 ≤ ⌊seventhsRand (0 + i) * 16⌋ ∧ ⌊seventhsRand (0 + i) * 16⌋ ≤ 15
        ∧ ∃ c, jsIndex letters.toList ⌊seventhsRand (0 + i) * 16⌋ = some c) :=
  ⟨seventhsRand_range, getRandomColor_seventhsRand,
    getRandomColor_valid seventhsRand 0 seventhsRand_range⟩

/-- Claim C7. With six draws in `[0, 1)`, the colour returned by `getRandomColor` is the
image of the sextuple of digit indices `⌊r * 16⌋` (each in `0..15`) under
`colorOfIndices`; that map is a bijection from the `16^6` index sextuples onto the
`16^6` strings made of `'#'` and six characters of `0123456789ABCDEF`; and the index
`k` is selected exactly by the draws in `[k/16, (k+1)/16)`, an interval of width
`1/16`. -/
theorem getRandomColor_uniform (rand : Nat → ℚ) (pos : Nat)
    (h : ∀ i, i < 6 → 0 ≤ rand (pos + i) ∧ rand (pos + i) < 1) (r : ℚ) (k : Int) :
    (∃ idx : Fin 6 → Fin 16,
        (∀ i : Fin 6, ⌊rand (pos + i) * 16⌋ = ((idx i : Nat) : Int))
        ∧ (getRandomColor rand pos).1 = colorOfIndices idx)
    ∧ Set.BijOn colorOfIndices Set.univ {s | isHexColor s}
    ∧ Fintype.card (Fin 6 → Fin 16) = 16 ^ 6
    ∧ Set.ncard {s | isHexColor s} = 16 ^ 6
    ∧ (⌊r * 16⌋ = k ↔ (k : ℚ) / 16 ≤ r ∧ r < ((k : ℚ) + 1) / 16)
    ∧ ((k : ℚ) + 1) / 16 - (k : ℚ) / 16 = 1 / 16 := by
  refine ⟨?_, ⟨fun idx _ => colorOfIndices_isHexColor idx,
    fun a _ b _ hab => colorOfIndices_injective hab, fun s hs => ?_⟩, by simp,
    isHexColor_ncard, floor_eq_iff_interval r k, by ring⟩
  · have hf := fun i hi => floor_draw_range _ (h i hi).1 (h i hi).2
    have hidx : ∀ i : Fin 6, ⌊rand (pos + i) * 16⌋
        = (((⟨⌊rand (pos + i) * 16⌋.toNat, by have := hf i i.isLt; omega⟩ : Fin 16) : Nat)
            : Int) := by
      intro i
      have := hf i i.isLt
      simp only []
      omega
    refine ⟨fun i => ⟨⌊rand (pos + i) * 16⌋.toNat, by have := hf i i.isLt; omega⟩, hidx, ?_⟩
    rw [colorOfIndices_eq]
    exact getRandomColor_of_indices rand pos _ hidx
  · obtain ⟨idx, hidx⟩ := colorOfIndices_surjective s hs
    exact ⟨idx, Set.mem_univ _, hidx⟩

theorem getRandomColor_uniform_witness :
    (∀ i, i < 6 → 0 ≤ seventhsRand (0 + i) ∧ seventhsRand (0 + i) < 1)
    ∧ (∃ idx : Fin 6 → Fin 16,
        (∀ i : Fin 6, ⌊seventhsRand (0 + i) * 16⌋ = ((idx i : Nat) : Int))
        ∧ (getRandomColor seventhsRand 0).1 = colorOfIndices idx)
    ∧ (⌊(3 / 7 : ℚ) * 16⌋ = (6 : Int)
        ↔ ((6 : Int) : ℚ) / 16 ≤ 3 / 7 ∧ (3 / 7 : ℚ) < (((6 : Int) : ℚ) + 1) / 16) :=
  ⟨seventhsRand_range,
    (getRandomColor_uniform seventhsRand 0 seventhsRand_range (3 / 7) 6).1,
    (getRandomColor_uniform seventhsRand 0 seventhsRand_range (3 / 7) 6).2.2.2.2.1⟩

end VesselMap
